import Mathlib

/-!
Verification of the cost-computation engine and statistics aggregator of
`claude-code-cost` (files `claude_code_cost/billing.py` and
`claude_code_cost/analyzer.py`), as a shallow embedding in Lean 4.

Python `float` arithmetic is modelled by `ℚ`, Python `int` by `ℤ`,
Python dictionaries by insertion-ordered association lists, and the
JSON/YAML-shaped configuration dictionaries by structures whose fields are
`Option`-valued (a `none` field is an absent dictionary key, so that
`dict.get(key, default)` becomes `Option.getD`).  Python dict truthiness
(`if not model_config`) is captured by `isTruthy`, which also accounts for
keys the code never reads via the `hasOtherKeys` flag.
-/

namespace ClaudeCodeCost

/-- Association-list lookup, mirroring Python `dict[k]` / `k in dict`
(dictionary keys are unique; lookup finds the first occurrence). -/
def lookupA {α : Type} : List (String × α) → String → Option α
  | [], _ => none
  | (k', v) :: rest, k => if k' = k then some v else lookupA rest k

/-- Python's check-then-create-then-mutate pattern on a dict entry:
`if k not in d: d[k] = dflt` followed by an in-place mutation `f` of `d[k]`.
A new key is appended (insertion order), an existing key keeps its position. -/
def updateA {α : Type} : List (String × α) → String → α → (α → α) → List (String × α)
  | [], k, dflt, f => [(k, f dflt)]
  | (k', v) :: rest, k, dflt, f =>
    if k' = k then (k', f v) :: rest else (k', v) :: updateA rest k dflt f

/-- Python dict assignment `d[k] = v`. -/
def setA {α : Type} (l : List (String × α)) (k : String) (v : α) : List (String × α) :=
  updateA l k v (fun _ => v)

/-- Sum of `f` over the values of an association list. -/
def sumBy {α M : Type} [AddCommMonoid M] (l : List (String × α)) (f : α → M) : M :=
  (l.map (fun e => f e.2)).sum

/-- Python `str.lower()`: characterwise lowercase (structurally recursive,
semantically `String.toLower`). -/
def lowerStr (s : String) : String := String.mk (s.data.map Char.toLower)

/-- Python substring containment `sub in hay` on character lists. -/
def containsSub : List Char → List Char → Bool
  | hay, sub =>
    if sub.isPrefixOf hay then true
    else match hay with
      | [] => false
      | _ :: t => containsSub t sub

/-- `config_key.lower() in model_name.lower()` from the substring-match pass. -/
def substrMatch (config_key model_name : String) : Bool :=
  containsSub (lowerStr model_name).toList (lowerStr config_key).toList

/-- A tier `threshold` value as the code can consume it: a number, or the
string `"inf"` (both `float(threshold)`-convertible forms). -/
inductive Thresh : Type
  | num (q : ℚ)
  | inf
deriving DecidableEq, Repr

/-- One element of a `tiers` list: a dictionary with the keys the code reads,
each possibly absent. -/
structure Tier where
  threshold : Option Thresh := none
  input_per_million : Option ℚ := none
  output_per_million : Option ℚ := none
  cache_read_per_million : Option ℚ := none
  cache_write_per_million : Option ℚ := none
deriving DecidableEq, Repr

/-- A pricing-rule dictionary (one value of the `pricing` config mapping).
`hasOtherKeys` records whether the dictionary has keys the code never
reads; it only influences Python truthiness of the dictionary. -/
structure ModelConfig where
  tiers : Option (List Tier) := none
  input_per_million : Option ℚ := none
  output_per_million : Option ℚ := none
  cache_read_per_million : Option ℚ := none
  cache_write_per_million : Option ℚ := none
  currency : Option String := none
  hasOtherKeys : Bool := false
deriving DecidableEq, Repr

/-- Python truthiness of a pricing-rule dictionary: nonempty as a dict. -/
def ModelConfig.isTruthy (c : ModelConfig) : Bool :=
  c.tiers.isSome || c.input_per_million.isSome || c.output_per_million.isSome ||
    c.cache_read_per_million.isSome || c.cache_write_per_million.isSome ||
    c.currency.isSome || c.hasOtherKeys

/-- The `currency` config dictionary. -/
structure CurrencyConfig where
  usd_to_cny : Option ℚ := none
  display_unit : Option String := none
  hasOtherKeys : Bool := false
deriving DecidableEq, Repr

/-- Python truthiness of the currency dictionary. -/
def CurrencyConfig.isTruthy (c : CurrencyConfig) : Bool :=
  c.usd_to_cny.isSome || c.display_unit.isSome || c.hasOtherKeys

/-- `DEFAULT_USD_TO_CNY = 7.0`. -/
def DEFAULT_USD_TO_CNY : ℚ := 7

/-- The tier sort key (`sort_key` in `calculate_model_cost`): absent or
`"inf"` thresholds sort as `+∞`, numeric ones by their value. -/
def tierKey (t : Tier) : WithTop ℚ :=
  match t.threshold with
  | none => ⊤
  | some Thresh.inf => ⊤
  | some (Thresh.num q) => (q : WithTop ℚ)

/-- The ordering used by `sorted(tiers, key=sort_key)`. -/
def tierLE (a b : Tier) : Prop := tierKey a ≤ tierKey b

instance : DecidableRel tierLE := fun a b => inferInstanceAs (Decidable (tierKey a ≤ tierKey b))

instance : IsTotal Tier tierLE := ⟨fun a b => le_total (tierKey a) (tierKey b)⟩

instance : IsTrans Tier tierLE := ⟨fun _ _ _ h h' => le_trans h h'⟩

/-- The tier-selection scan over the sorted tier list: the first tier with no
threshold, with threshold `"inf"`, or with `input_tokens <= float(threshold)`. -/
def scanTiers (input_tokens : ℤ) : List Tier → Option Tier
  | [] => none
  | t :: rest =>
    match t.threshold with
    | none => some t
    | some Thresh.inf => some t
    | some (Thresh.num q) =>
      if (input_tokens : ℚ) ≤ q then some t else scanTiers input_tokens rest

/-- Tier selection of `calculate_model_cost`: sort by threshold (stable, absent
last), take the first applicable tier, else fall back to the last sorted tier. -/
def selectTier (tiers : List Tier) (input_tokens : ℤ) : Option Tier :=
  let sorted_tiers := List.insertionSort tierLE tiers
  match scanTiers input_tokens sorted_tiers with
  | some t => some t
  | none => sorted_tiers.getLast?

/-- The four rates read off the selected tier (`tier.get(..., 0)`); no selected
tier — or an empty tier dictionary, which is falsy — leaves every rate `0`. -/
def tierRates (t : Option Tier) : ℚ × ℚ × ℚ × ℚ :=
  match t with
  | none => (0, 0, 0, 0)
  | some t =>
    (t.input_per_million.getD 0, t.output_per_million.getD 0,
     t.cache_read_per_million.getD 0, t.cache_write_per_million.getD 0)

/-- The four rates used for a model config: tiered selection when a `tiers`
key is present, otherwise the flat per-million rates (default `0`). -/
def configRates (mc : ModelConfig) (input_tokens : ℤ) : ℚ × ℚ × ℚ × ℚ :=
  match mc.tiers with
  | some tiers => tierRates (selectTier tiers input_tokens)
  | none =>
    (mc.input_per_million.getD 0, mc.output_per_million.getD 0,
     mc.cache_read_per_million.getD 0, mc.cache_write_per_million.getD 0)

/-- The pre-currency cost: `Σ (tokens / 1_000_000) * rate` over the four
token kinds, with the rates of `configRates`. -/
def rawModelCost (mc : ModelConfig) (input_tokens output_tokens cache_read_tokens
    cache_creation_tokens : ℤ) : ℚ :=
  let r := configRates mc input_tokens
  (input_tokens : ℚ) / 1000000 * r.1 + (output_tokens : ℚ) / 1000000 * r.2.1 +
    (cache_read_tokens : ℚ) / 1000000 * r.2.2.1 +
    (cache_creation_tokens : ℚ) / 1000000 * r.2.2.2

/-- Python truthiness of an optional currency config
(`... and currency_config`). -/
def currencyTruthy : Option CurrencyConfig → Bool
  | none => false
  | some c => c.isTruthy

/-- Cost of a resolved model config including currency normalization: a rule
whose `currency` is `"CNY"` (with a truthy currency config) is divided by the
`usd_to_cny` exchange rate (default `7.0`). -/
def costFromConfig (mc : ModelConfig) (input_tokens output_tokens cache_read_tokens
    cache_creation_tokens : ℤ) (currency_config : Option CurrencyConfig) : ℚ :=
  let total_cost := rawModelCost mc input_tokens output_tokens cache_read_tokens
    cache_creation_tokens
  if mc.currency.getD "USD" = "CNY" ∧ currencyTruthy currency_config then
    total_cost / ((currency_config.map (fun c => c.usd_to_cny.getD DEFAULT_USD_TO_CNY)).getD
      DEFAULT_USD_TO_CNY)
  else total_cost

/-- Exact-match pass: the first catalog key equal (case-insensitively) to the
model name. -/
def findExact (model_name : String) : List (String × ModelConfig) → Option ModelConfig
  | [] => none
  | (k, v) :: rest =>
    if lowerStr model_name = lowerStr k then some v else findExact model_name rest

/-- Substring pass: the first catalog key that is a case-insensitive substring
of the model name. -/
def findSubstr (model_name : String) : List (String × ModelConfig) → Option ModelConfig
  | [] => none
  | (k, v) :: rest =>
    if substrMatch k model_name then some v else findSubstr model_name rest

/-- Python truthiness of the intermediate `model_config` variable
(`None` or an empty dict are both falsy). -/
def configTruthy : Option ModelConfig → Bool
  | none => false
  | some c => c.isTruthy

/-- The resolution part of `calculate_model_cost`: exact match first; if the
result is falsy, the substring scan; if the final result is falsy, not found. -/
def resolveModel (model_name : String) (pricing_config : List (String × ModelConfig)) :
    Option ModelConfig :=
  let m1 := findExact model_name pricing_config
  let m2 := if configTruthy m1 then m1 else findSubstr model_name pricing_config
  if configTruthy m2 then m2 else none

/-- Cache lookup `model_config_cache and model_name in model_config_cache`
(an absent cache, or an empty one — which has no keys — yields no hit). -/
def cacheGet (cache : Option (List (String × ModelConfig))) (k : String) :
    Option ModelConfig :=
  match cache with
  | none => none
  | some c => lookupA c k

/-- `calculate_model_cost` from `billing.py`: empty pricing short-circuits to
`0`; a cache hit supplies the config; otherwise the config is resolved and, if
found, stored into the cache; the cost then goes through `costFromConfig`.
Returns the cost together with the (possibly updated) cache. -/
def calculate_model_cost (model_name : String) (input_tokens output_tokens : ℤ)
    (cache_read_tokens cache_creation_tokens : ℤ)
    (pricing_config : List (String × ModelConfig))
    (model_config_cache : Option (List (String × ModelConfig)))
    (currency_config : Option CurrencyConfig) :
    ℚ × Option (List (String × ModelConfig)) :=
  if pricing_config.isEmpty then (0, model_config_cache)
  else
    match cacheGet model_config_cache model_name with
    | some mc =>
      (costFromConfig mc input_tokens output_tokens cache_read_tokens
        cache_creation_tokens currency_config, model_config_cache)
    | none =>
      match resolveModel model_name pricing_config with
      | none => (0, model_config_cache)
      | some mc =>
        (costFromConfig mc input_tokens output_tokens cache_read_tokens
          cache_creation_tokens currency_config,
         match model_config_cache with
         | none => none
         | some c => some (setA c model_name mc))

/-! ### The statistics aggregator (`analyzer.py`) -/

/-- `ProjectStats` from `models.py` (also the shape of daily project-breakdown
entries). -/
structure ProjectStats where
  project_name : String := ""
  total_input_tokens : ℤ := 0
  total_output_tokens : ℤ := 0
  total_cache_read_tokens : ℤ := 0
  total_cache_creation_tokens : ℤ := 0
  total_messages : ℤ := 0
  total_cost : ℚ := 0
  models_used : List (String × ℤ) := []
  first_message_date : Option String := none
  last_message_date : Option String := none
deriving DecidableEq, Repr

/-- `ModelStats` from `models.py`. -/
structure ModelStats where
  model_name : String := ""
  total_input_tokens : ℤ := 0
  total_output_tokens : ℤ := 0
  total_cache_read_tokens : ℤ := 0
  total_cache_creation_tokens : ℤ := 0
  total_messages : ℤ := 0
  total_cost : ℚ := 0
deriving DecidableEq, Repr

/-- `DailyStats` from `models.py`. -/
structure DailyStats where
  date : String := ""
  total_input_tokens : ℤ := 0
  total_output_tokens : ℤ := 0
  total_cache_read_tokens : ℤ := 0
  total_cache_creation_tokens : ℤ := 0
  total_messages : ℤ := 0
  total_cost : ℚ := 0
  models_used : List (String × ℤ) := []
  projects_active : ℤ := 0
  project_breakdown : List (String × ProjectStats) := []
deriving DecidableEq, Repr

/-- A token-count field of the `usage` dictionary: absent (or a falsy value,
read as `0` by `x or 0`), a Python integer, or a value `int()` cannot convert
(which raises `ValueError`/`TypeError`). -/
inductive TokenField : Type
  | absent
  | val (n : ℤ)
  | malformed
deriving DecidableEq, Repr

/-- `int(usage.get(key) or 0)`: absent/falsy reads as `0`, an integer reads as
itself, an unconvertible value fails (`none` marks the raised exception). -/
def extractToken : TokenField → Option ℤ
  | TokenField.absent => some 0
  | TokenField.val n => some n
  | TokenField.malformed => none

/-- The `usage` dictionary of a message. -/
structure Usage where
  input_tokens : TokenField := TokenField.absent
  output_tokens : TokenField := TokenField.absent
  cache_read_input_tokens : TokenField := TokenField.absent
  cache_creation_input_tokens : TokenField := TokenField.absent
deriving DecidableEq, Repr

/-- The `message` sub-dictionary (`none` stands for a missing or falsy-empty
`usage`/`model` entry, matching the code's `if not usage` check). -/
structure MessagePart where
  usage : Option Usage := none
  model : Option String := none
deriving DecidableEq, Repr

/-- One parsed JSONL record as `_process_message` sees it. -/
structure MessageData where
  type_ : Option String := none
  message : Option MessagePart := none
  timestamp : Option String := none
deriving DecidableEq, Repr

/-- The analyzer configuration fixed for one run: pricing catalog, currency
config, and the timezone-dependent `_convert_utc_to_local` conversion
(modelled as an arbitrary function from timestamp strings to date strings,
`"unknown"` marking a conversion failure). -/
structure Config where
  pricing_config : List (String × ModelConfig) := []
  currency_config : Option CurrencyConfig := none
  localDate : String → String := fun _ => "unknown"

/-- The analyzer state shared across projects: `self.daily_stats`,
`self.model_stats` and `self.model_config_cache`. -/
structure Globals where
  daily_stats : List (String × DailyStats) := []
  model_stats : List (String × ModelStats) := []
  model_config_cache : List (String × ModelConfig) := []
deriving DecidableEq, Repr

/-- The whole mutable analyzer state (`self.project_stats` plus the rest). -/
structure AnalyzerState where
  project_stats : List (String × ProjectStats) := []
  globals : Globals := {}
deriving DecidableEq, Repr

/-- The gate of `_process_message`: only assistant messages with a truthy
`message` and `usage`, convertible token counts, and not
`input_tokens == 0 and output_tokens == 0` are processed.  Returns the four
token counts and the model name (`message.get("model", "unknown")`). -/
def gateMessage (data : MessageData) : Option (ℤ × ℤ × ℤ × ℤ × String) :=
  if data.type_ ≠ some "assistant" then none
  else match data.message with
    | none => none
    | some m =>
      match m.usage with
      | none => none
      | some u =>
        match extractToken u.input_tokens, extractToken u.output_tokens,
            extractToken u.cache_read_input_tokens,
            extractToken u.cache_creation_input_tokens with
        | some input_tokens, some output_tokens, some cache_read_tokens,
            some cache_creation_tokens =>
          if input_tokens = 0 ∧ output_tokens = 0 then none
          else some (input_tokens, output_tokens, cache_read_tokens,
            cache_creation_tokens, m.model.getD "unknown")
        | _, _, _, _ => none

/-- `if not first_message_date or date_str < first_message_date` (a `None` or
empty-string stored date is falsy). -/
def updFirstDate (cur : Option String) (date_str : String) : Option String :=
  match cur with
  | none => some date_str
  | some s => if s = "" ∨ date_str < s then some date_str else some s

/-- `if not last_message_date or date_str > last_message_date`. -/
def updLastDate (cur : Option String) (date_str : String) : Option String :=
  match cur with
  | none => some date_str
  | some s => if s = "" ∨ s < date_str then some date_str else some s

/-- `models_used[model] += 1`, creating the entry at count `1`. -/
def bumpModelUsed (l : List (String × ℤ)) (model_name : String) : List (String × ℤ) :=
  updateA l model_name 0 (fun n => n + 1)

/-- The per-message update of the project aggregate (`_process_message`,
project-stats section): token counters, message count, cost, model usage, and
the first/last date range when the date is not the `"unknown"` sentinel. -/
def updateProj (i o cr cc : ℤ) (cost : ℚ) (model_name date_str : String)
    (ps : ProjectStats) : ProjectStats :=
  let ps1 : ProjectStats :=
    { ps with
      total_input_tokens := ps.total_input_tokens + i
      total_output_tokens := ps.total_output_tokens + o
      total_cache_read_tokens := ps.total_cache_read_tokens + cr
      total_cache_creation_tokens := ps.total_cache_creation_tokens + cc
      total_messages := ps.total_messages + 1
      total_cost := ps.total_cost + cost
      models_used := bumpModelUsed ps.models_used model_name }
  if date_str ≠ "unknown" then
    { ps1 with
      first_message_date := updFirstDate ps1.first_message_date date_str
      last_message_date := updLastDate ps1.last_message_date date_str }
  else ps1

/-- The per-message update of a daily project-breakdown entry (same counters,
no date-range tracking). -/
def updateDailyProj (i o cr cc : ℤ) (cost : ℚ) (model_name : String)
    (dps : ProjectStats) : ProjectStats :=
  { dps with
    total_input_tokens := dps.total_input_tokens + i
    total_output_tokens := dps.total_output_tokens + o
    total_cache_read_tokens := dps.total_cache_read_tokens + cr
    total_cache_creation_tokens := dps.total_cache_creation_tokens + cc
    total_messages := dps.total_messages + 1
    total_cost := dps.total_cost + cost
    models_used := bumpModelUsed dps.models_used model_name }

/-- The per-message update of a daily aggregate: its own counters plus the
nested project-breakdown entry keyed by the project's name. -/
def updateDaily (i o cr cc : ℤ) (cost : ℚ) (model_name project_name : String)
    (ds : DailyStats) : DailyStats :=
  { ds with
    total_input_tokens := ds.total_input_tokens + i
    total_output_tokens := ds.total_output_tokens + o
    total_cache_read_tokens := ds.total_cache_read_tokens + cr
    total_cache_creation_tokens := ds.total_cache_creation_tokens + cc
    total_messages := ds.total_messages + 1
    total_cost := ds.total_cost + cost
    models_used := bumpModelUsed ds.models_used model_name
    project_breakdown := updateA ds.project_breakdown project_name
      { project_name := project_name }
      (updateDailyProj i o cr cc cost model_name) }

/-- The per-message update of a model aggregate. -/
def updateModel (i o cr cc : ℤ) (cost : ℚ) (ms : ModelStats) : ModelStats :=
  { ms with
    total_input_tokens := ms.total_input_tokens + i
    total_output_tokens := ms.total_output_tokens + o
    total_cache_read_tokens := ms.total_cache_read_tokens + cr
    total_cache_creation_tokens := ms.total_cache_creation_tokens + cc
    total_messages := ms.total_messages + 1
    total_cost := ms.total_cost + cost }

/-- The attribution date: the local date of a truthy timestamp (falling back
to the file date when conversion fails and a file date exists), otherwise the
file's fallback date. -/
def attributionDate (cfg : Config) (data : MessageData) (fallback_date : String) : String :=
  let timestamp_str := data.timestamp.getD ""
  if timestamp_str ≠ "" then
    let d := cfg.localDate timestamp_str
    if d = "unknown" ∧ fallback_date ≠ "unknown" then fallback_date else d
  else fallback_date

/-- `_process_message` from `analyzer.py`: gate the record, compute the
attribution date and the message cost, then fold the record into the project
aggregate, the daily aggregate (with its project breakdown), and the model
aggregate.  Returns the updated shared state, the updated project aggregate,
and whether the record was counted. -/
def process_message (cfg : Config) (g : Globals) (project_stats : ProjectStats)
    (data : MessageData) (fallback_date : String) : Globals × ProjectStats × Bool :=
  match gateMessage data with
  | none => (g, project_stats, false)
  | some (i, o, cr, cc, model_name) =>
    let date_str := attributionDate cfg data fallback_date
    let res := calculate_model_cost model_name i o cr cc cfg.pricing_config
      (some g.model_config_cache) cfg.currency_config
    let message_cost := res.1
    let ps' := updateProj i o cr cc message_cost model_name date_str project_stats
    let daily' := updateA g.daily_stats date_str { date := date_str }
      (updateDaily i o cr cc message_cost model_name project_stats.project_name)
    let models' := updateA g.model_stats model_name { model_name := model_name }
      (updateModel i o cr cc message_cost)
    ({ daily_stats := daily', model_stats := models',
       model_config_cache := res.2.getD g.model_config_cache }, ps', true)

/-- One parsed JSONL file: its fallback date (file creation time, or
`"unknown"`) and its parsed lines. -/
structure FileData where
  fallback_date : String := "unknown"
  lines : List MessageData := []

/-- One project directory: the extracted project name and its JSONL files. -/
structure DirData where
  project_name : String := ""
  files : List FileData := []

/-- `_analyze_single_directory`'s entry creation:
`if project_name not in self.project_stats: ... = ProjectStats(project_name=...)`. -/
def ensureProject (s : AnalyzerState) (project_name : String) : AnalyzerState :=
  match lookupA s.project_stats project_name with
  | some _ => s
  | none =>
    { s with project_stats :=
        s.project_stats ++ [(project_name, { project_name := project_name })] }

/-- Processing one JSONL line: fetch the project aggregate (always present, the
directory pass created it), run `_process_message`, store the results back. -/
def processLine (cfg : Config) (s : AnalyzerState) (project_name fallback_date : String)
    (data : MessageData) : AnalyzerState :=
  match lookupA s.project_stats project_name with
  | none => s
  | some ps =>
    let r := process_message cfg s.globals ps data fallback_date
    { project_stats := setA s.project_stats project_name r.2.1, globals := r.1 }

/-- `_process_jsonl_file`: fold the file's lines. -/
def processFile (cfg : Config) (s : AnalyzerState) (project_name : String)
    (f : FileData) : AnalyzerState :=
  f.lines.foldl (fun s data => processLine cfg s project_name f.fallback_date data) s

/-- `_analyze_single_directory`: create the project entry, fold the files. -/
def processDir (cfg : Config) (s : AnalyzerState) (d : DirData) : AnalyzerState :=
  d.files.foldl (fun s f => processFile cfg s d.project_name f)
    (ensureProject s d.project_name)

/-- The raw run over all project directories, before finalization. -/
def runRaw (cfg : Config) (dirs : List DirData) : AnalyzerState :=
  dirs.foldl (processDir cfg) {}

/-- The finalization pass of `analyze_directory`:
`daily_stats.projects_active = len(daily_stats.project_breakdown)`. -/
def finalizeState (s : AnalyzerState) : AnalyzerState :=
  { s with globals :=
      { s.globals with daily_stats :=
          (s.globals.daily_stats.map (fun e =>
            (e.1, { e.2 with projects_active := (e.2.project_breakdown.length : ℤ) }))) } }

/-- `analyze_directory`: the raw run followed by finalization. -/
def runAnalyzer (cfg : Config) (dirs : List DirData) : AnalyzerState :=
  finalizeState (runRaw cfg dirs)

/-! ### Association-list lemmas -/

theorem lookupA_mem {α : Type} {l : List (String × α)} {k : String} {v : α}
    (h : lookupA l k = some v) : (k, v) ∈ l := by
  induction l with
  | nil => simp [lookupA] at h
  | cons e rest ih =>
    obtain ⟨k', v'⟩ := e
    by_cases hk : k' = k
    · subst hk
      simp [lookupA] at h
      subst h
      exact List.mem_cons_self _ _
    · simp [lookupA, hk] at h
      exact List.mem_cons_of_mem _ (ih h)

theorem sumBy_updateA {α M : Type} [AddCommMonoid M] (l : List (String × α)) (k : String)
    (dflt : α) (f : α → α) (g : α → M) (δ : M)
    (hf : ∀ v, g (f v) = g v + δ) (hd : g dflt = 0) :
    sumBy (updateA l k dflt f) g = sumBy l g + δ := by
  induction l with
  | nil => simp [sumBy, updateA, hf, hd]
  | cons e rest ih =>
    obtain ⟨k', v'⟩ := e
    by_cases hk : k' = k
    · simp [sumBy, updateA, hk, hf]
      abel
    · simp only [sumBy, updateA, hk, if_false, List.map_cons, List.sum_cons]
      simp only [sumBy] at ih
      rw [ih]
      abel

theorem sumBy_setA {α M : Type} [AddCommMonoid M] {l : List (String × α)} {k : String}
    {v : α} (h : lookupA l k = some v) (v' : α) (g : α → M) (δ : M)
    (hv : g v' = g v + δ) : sumBy (setA l k v') g = sumBy l g + δ := by
  induction l with
  | nil => simp [lookupA] at h
  | cons e rest ih =>
    obtain ⟨k', w⟩ := e
    by_cases hk : k' = k
    · subst hk
      simp [lookupA] at h
      subst h
      simp [sumBy, setA, updateA, hv]
      abel
    · simp [lookupA, hk] at h
      simp only [sumBy, setA, updateA, hk, if_false, List.map_cons, List.sum_cons]
      simp only [sumBy, setA] at ih
      rw [ih h]
      abel

theorem setA_lookup_self {α : Type} {l : List (String × α)} {k : String} {v : α}
    (h : lookupA l k = some v) : setA l k v = l := by
  induction l with
  | nil => simp [lookupA] at h
  | cons e rest ih =>
    obtain ⟨k', w⟩ := e
    by_cases hk : k' = k
    · subst hk
      simp [lookupA] at h
      subst h
      simp [setA, updateA]
    · simp [lookupA, hk] at h
      simp [setA, updateA, hk] at ih ⊢
      exact ih h

theorem forall_updateA {α : Type} {P : α → Prop} {l : List (String × α)} {k : String}
    {dflt : α} {f : α → α} (h : ∀ e ∈ l, P e.2) (hf : ∀ v, P v → P (f v))
    (hd : P (f dflt)) : ∀ e ∈ updateA l k dflt f, P e.2 := by
  induction l with
  | nil =>
    intro e he
    simp [updateA] at he
    subst he
    exact hd
  | cons x rest ih =>
    obtain ⟨k', v'⟩ := x
    intro e he
    by_cases hk : k' = k
    · simp [updateA, hk] at he
      rcases he with he | he
      · subst he
        exact hf _ (h _ (List.mem_cons_self _ _))
      · exact h _ (List.mem_cons_of_mem _ he)
    · simp only [updateA, hk, if_false] at he
      rcases List.mem_cons.mp he with he | he
      · subst he
        exact h _ (List.mem_cons_self _ _)
      · exact ih (fun e' he' => h _ (List.mem_cons_of_mem _ he')) e he

theorem mem_updateA {α : Type} {l : List (String × α)} {k : String} {dflt : α}
    {f : α → α} {e : String × α} (he : e ∈ updateA l k dflt f) :
    e ∈ l ∨ ∃ w, e = (k, f w) := by
  induction l with
  | nil =>
    simp [updateA] at he
    exact Or.inr ⟨dflt, he⟩
  | cons x rest ih =>
    obtain ⟨k', v'⟩ := x
    by_cases hk : k' = k
    · subst hk
      simp [updateA] at he
      rcases he with he | he
      · exact Or.inr ⟨v', by simp [he]⟩
      · exact Or.inl (List.mem_cons_of_mem _ he)
    · simp only [updateA, hk, if_false] at he
      rcases List.mem_cons.mp he with he | he
      · exact Or.inl (he ▸ List.mem_cons_self _ _)
      · rcases ih he with h' | h'
        · exact Or.inl (List.mem_cons_of_mem _ h')
        · exact Or.inr h'

theorem sumBy_append {α M : Type} [AddCommMonoid M] (l l' : List (String × α))
    (g : α → M) : sumBy (l ++ l') g = sumBy l g + sumBy l' g := by
  simp [sumBy]

/-! ### C1: daily totals equal the sums over the daily project breakdown -/

/-- The cross-dimension consistency contract for one day: each of the six
accumulators of the daily aggregate equals the sum of that accumulator over
the day's project breakdown. -/
def dailyOK (ds : DailyStats) : Prop :=
  ds.total_input_tokens = sumBy ds.project_breakdown (fun p => p.total_input_tokens) ∧
  ds.total_output_tokens = sumBy ds.project_breakdown (fun p => p.total_output_tokens) ∧
  ds.total_cache_read_tokens =
    sumBy ds.project_breakdown (fun p => p.total_cache_read_tokens) ∧
  ds.total_cache_creation_tokens =
    sumBy ds.project_breakdown (fun p => p.total_cache_creation_tokens) ∧
  ds.total_messages = sumBy ds.project_breakdown (fun p => p.total_messages) ∧
  ds.total_cost = sumBy ds.project_breakdown (fun p => p.total_cost)

/-- The consistency contract over the whole daily map. -/
def dailyInv (l : List (String × DailyStats)) : Prop := ∀ e ∈ l, dailyOK e.2

theorem dailyOK_default (d : String) : dailyOK { date := d } := by
  refine ⟨rfl, rfl, rfl, rfl, rfl, rfl⟩

theorem dailyOK_updateDaily (i o cr cc : ℤ) (cost : ℚ) (model_name project_name : String)
    {ds : DailyStats} (h : dailyOK ds) :
    dailyOK (updateDaily i o cr cc cost model_name project_name ds) := by
  obtain ⟨h1, h2, h3, h4, h5, h6⟩ := h
  have e1 := sumBy_updateA ds.project_breakdown project_name
    { project_name := project_name } (updateDailyProj i o cr cc cost model_name)
    (fun p => p.total_input_tokens) i (fun v => by simp [updateDailyProj]) (by simp)
  have e2 := sumBy_updateA ds.project_breakdown project_name
    { project_name := project_name } (updateDailyProj i o cr cc cost model_name)
    (fun p => p.total_output_tokens) o (fun v => by simp [updateDailyProj]) (by simp)
  have e3 := sumBy_updateA ds.project_breakdown project_name
    { project_name := project_name } (updateDailyProj i o cr cc cost model_name)
    (fun p => p.total_cache_read_tokens) cr (fun v => by simp [updateDailyProj]) (by simp)
  have e4 := sumBy_updateA ds.project_breakdown project_name
    { project_name := project_name } (updateDailyProj i o cr cc cost model_name)
    (fun p => p.total_cache_creation_tokens) cc
    (fun v => by simp [updateDailyProj]) (by simp)
  have e5 := sumBy_updateA ds.project_breakdown project_name
    { project_name := project_name } (updateDailyProj i o cr cc cost model_name)
    (fun p => p.total_messages) 1 (fun v => by simp [updateDailyProj]) (by simp)
  have e6 := sumBy_updateA ds.project_breakdown project_name
    { project_name := project_name } (updateDailyProj i o cr cc cost model_name)
    (fun p => p.total_cost) cost (fun v => by simp [updateDailyProj]) (by simp)
  refine ⟨?_, ?_, ?_, ?_, ?_, ?_⟩ <;> simp only [updateDaily]
  · rw [e1, h1]
  · rw [e2, h2]
  · rw [e3, h3]
  · rw [e4, h4]
  · rw [e5, h5]
  · rw [e6, h6]

theorem dailyInv_updateA (l : List (String × DailyStats)) (date_str : String)
    (i o cr cc : ℤ) (cost : ℚ) (model_name project_name : String)
    (h : dailyInv l) :
    dailyInv (updateA l date_str { date := date_str }
      (updateDaily i o cr cc cost model_name project_name)) := by
  intro e he
  exact forall_updateA h
    (fun v hv => dailyOK_updateDaily i o cr cc cost model_name project_name hv)
    (dailyOK_updateDaily i o cr cc cost model_name project_name (dailyOK_default _))
    e he

/-- `_process_message` preserves the daily consistency contract. -/
theorem dailyInv_process_message (cfg : Config) (g : Globals) (ps : ProjectStats)
    (data : MessageData) (fb : String) (h : dailyInv g.daily_stats) :
    dailyInv (process_message cfg g ps data fb).1.daily_stats := by
  unfold process_message
  cases hg : gateMessage data with
  | none => exact h
  | some r =>
    obtain ⟨i, o, cr, cc, model_name⟩ := r
    exact dailyInv_updateA _ _ _ _ _ _ _ _ _ h

theorem dailyInv_processLine (cfg : Config) (s : AnalyzerState)
    (pname fb : String) (data : MessageData) (h : dailyInv s.globals.daily_stats) :
    dailyInv (processLine cfg s pname fb data).globals.daily_stats := by
  unfold processLine
  cases hl : lookupA s.project_stats pname with
  | none => exact h
  | some ps => exact dailyInv_process_message cfg s.globals ps data fb h

theorem dailyInv_processFile (cfg : Config) (s : AnalyzerState) (pname : String)
    (f : FileData) (h : dailyInv s.globals.daily_stats) :
    dailyInv (processFile cfg s pname f).globals.daily_stats := by
  unfold processFile
  induction f.lines generalizing s with
  | nil => exact h
  | cons d rest ih =>
    exact ih (processLine cfg s pname f.fallback_date d)
      (dailyInv_processLine cfg s pname f.fallback_date d h)

theorem dailyInv_ensureProject (s : AnalyzerState) (pname : String)
    (h : dailyInv s.globals.daily_stats) :
    dailyInv (ensureProject s pname).globals.daily_stats := by
  unfold ensureProject
  cases lookupA s.project_stats pname <;> exact h

theorem dailyInv_processDir (cfg : Config) (s : AnalyzerState) (d : DirData)
    (h : dailyInv s.globals.daily_stats) :
    dailyInv (processDir cfg s d).globals.daily_stats := by
  unfold processDir
  have h0 := dailyInv_ensureProject s d.project_name h
  generalize ensureProject s d.project_name = s0 at h0
  induction d.files generalizing s0 with
  | nil => exact h0
  | cons f rest ih =>
    exact ih (processFile cfg s0 d.project_name f)
      (dailyInv_processFile cfg s0 d.project_name f h0)

theorem dailyInv_runRaw (cfg : Config) (dirs : List DirData) :
    dailyInv (runRaw cfg dirs).globals.daily_stats := by
  unfold runRaw
  have h0 : dailyInv (({} : AnalyzerState)).globals.daily_stats := by
    intro e he
    simp at he
  generalize ({} : AnalyzerState) = s0 at h0
  induction dirs generalizing s0 with
  | nil => exact h0
  | cons d rest ih =>
    exact ih (processDir cfg s0 d) (dailyInv_processDir cfg s0 d h0)

theorem dailyInv_finalize (s : AnalyzerState) (h : dailyInv s.globals.daily_stats) :
    dailyInv (finalizeState s).globals.daily_stats := by
  unfold finalizeState
  intro e he
  simp only [List.mem_map] at he
  obtain ⟨e0, he0, rfl⟩ := he
  have := h e0 he0
  obtain ⟨h1, h2, h3, h4, h5, h6⟩ := this
  exact ⟨h1, h2, h3, h4, h5, h6⟩

/-! ### C2: total cost is conserved across the project and day partitions -/

/-- Cost conservation between the two partitions of the processed record set:
the project-keyed aggregates and the date-keyed aggregates carry the same
total cost. -/
def costConserved (s : AnalyzerState) : Prop :=
  sumBy s.project_stats (fun p => p.total_cost) =
    sumBy s.globals.daily_stats (fun d => d.total_cost)

theorem updateProj_total_cost (i o cr cc : ℤ) (cost : ℚ) (mn d : String)
    (ps : ProjectStats) :
    (updateProj i o cr cc cost mn d ps).total_cost = ps.total_cost + cost := by
  unfold updateProj
  dsimp only
  split <;> rfl

/-- `_process_message` either leaves the state alone or adds the same message
cost to the enclosing project aggregate and to (exactly one) daily aggregate. -/
theorem process_message_cost_shift (cfg : Config) (g : Globals) (ps : ProjectStats)
    (data : MessageData) (fb : String) :
    process_message cfg g ps data fb = (g, ps, false) ∨
    ∃ δ : ℚ, (process_message cfg g ps data fb).2.1.total_cost = ps.total_cost + δ ∧
      sumBy (process_message cfg g ps data fb).1.daily_stats (fun d => d.total_cost) =
        sumBy g.daily_stats (fun d => d.total_cost) + δ := by
  unfold process_message
  cases hg : gateMessage data with
  | none => exact Or.inl rfl
  | some r =>
    obtain ⟨i, o, cr, cc, mn⟩ := r
    refine Or.inr ⟨(calculate_model_cost mn i o cr cc cfg.pricing_config
      (some g.model_config_cache) cfg.currency_config).1, ?_, ?_⟩
    · exact updateProj_total_cost _ _ _ _ _ _ _ _
    · exact sumBy_updateA _ _ _ _ _ _ (fun v => by simp [updateDaily]) (by simp)

theorem costConserved_processLine (cfg : Config) (s : AnalyzerState)
    (pname fb : String) (data : MessageData) (h : costConserved s) :
    costConserved (processLine cfg s pname fb data) := by
  unfold costConserved at h ⊢
  unfold processLine
  cases hl : lookupA s.project_stats pname with
  | none => exact h
  | some ps =>
    dsimp only
    rcases process_message_cost_shift cfg s.globals ps data fb with heq | ⟨δ, hp, hd⟩
    · rw [heq]
      dsimp only
      rw [setA_lookup_self hl]
      exact h
    · rw [sumBy_setA hl _ _ δ hp, hd, h]

theorem costConserved_processFile (cfg : Config) (s : AnalyzerState) (pname : String)
    (f : FileData) (h : costConserved s) :
    costConserved (processFile cfg s pname f) := by
  unfold processFile
  induction f.lines generalizing s with
  | nil => exact h
  | cons d rest ih =>
    exact ih (processLine cfg s pname f.fallback_date d)
      (costConserved_processLine cfg s pname f.fallback_date d h)

theorem costConserved_ensureProject (s : AnalyzerState) (pname : String)
    (h : costConserved s) : costConserved (ensureProject s pname) := by
  unfold costConserved at h ⊢
  unfold ensureProject
  cases lookupA s.project_stats pname with
  | some _ => exact h
  | none =>
    dsimp only
    rw [sumBy_append]
    have hz : sumBy [(pname, ({ project_name := pname } : ProjectStats))]
        (fun p => p.total_cost) = 0 := by simp [sumBy]
    rw [hz, add_zero, h]

theorem costConserved_processDir (cfg : Config) (s : AnalyzerState) (d : DirData)
    (h : costConserved s) : costConserved (processDir cfg s d) := by
  unfold processDir
  have h0 := costConserved_ensureProject s d.project_name h
  generalize ensureProject s d.project_name = s0 at h0
  induction d.files generalizing s0 with
  | nil => exact h0
  | cons f rest ih =>
    exact ih (processFile cfg s0 d.project_name f)
      (costConserved_processFile cfg s0 d.project_name f h0)

theorem costConserved_runRaw (cfg : Config) (dirs : List DirData) :
    costConserved (runRaw cfg dirs) := by
  unfold runRaw
  have h0 : costConserved ({} : AnalyzerState) := by
    simp [costConserved, sumBy]
  generalize ({} : AnalyzerState) = s0 at h0
  induction dirs generalizing s0 with
  | nil => exact h0
  | cons d rest ih =>
    exact ih (processDir cfg s0 d) (costConserved_processDir cfg s0 d h0)

theorem costConserved_finalize (s : AnalyzerState) (h : costConserved s) :
    costConserved (finalizeState s) := by
  unfold costConserved at h ⊢
  unfold finalizeState sumBy
  dsimp only
  rw [List.map_map]
  exact h

/-! ### Demonstration inputs used to instantiate the theorems -/

/-- A `sonnet`-keyed flat rule (integer demonstration rates). -/
def sonnetRule : ModelConfig :=
  { input_per_million := some 3, output_per_million := some 15,
    cache_read_per_million := some 1, cache_write_per_million := some 4 }

/-- A distinct rule keyed `claude-3-sonnet`, for the resolver-precedence
scenario of the spec. -/
def claude3SonnetRule : ModelConfig :=
  { input_per_million := some 99, output_per_million := some 999 }

/-- The resolver-precedence catalog `{"sonnet": ..., "claude-3-sonnet": ...}`
in that insertion order. -/
def demoCatalog : List (String × ModelConfig) :=
  [("sonnet", sonnetRule), ("claude-3-sonnet", claude3SonnetRule)]

/-- The first tier of the spec's tiered-rule example:
`{threshold:200000, rate:1.25}`. -/
def demoTier1 : Tier :=
  { threshold := some (Thresh.num 200000), input_per_million := some (5/4),
    output_per_million := some 10 }

/-- The second tier of the spec's tiered-rule example:
`{threshold:absent, rate:2.50}`. -/
def demoTier2 : Tier := { input_per_million := some (5/2), output_per_million := some 15 }

/-- The spec's tiered-rule example
`[{threshold:200000, rate:1.25}, {threshold:absent, rate:2.50}]`. -/
def demoTiers : List Tier := [demoTier1, demoTier2]

/-- A CNY-denominated flat rule at 4.0 per million input tokens. -/
def cnyDemoRule : ModelConfig :=
  { currency := some "CNY", input_per_million := some 4 }

/-- A small analyzer configuration for concrete runs. -/
def demoCfg : Config :=
  { pricing_config := demoCatalog,
    currency_config := some { usd_to_cny := some 7, display_unit := some "USD" },
    localDate := fun _ => "2024-01-02" }

/-- A processable assistant record. -/
def demoRecord : MessageData :=
  { type_ := some "assistant",
    message := some
      { usage := some
          { input_tokens := TokenField.val 100, output_tokens := TokenField.val 10,
            cache_read_input_tokens := TokenField.val 50 },
        model := some "claude-sonnet-4" },
    timestamp := some "2024-01-02T03:04:05Z" }

/-- A record whose input and output token counts are both zero. -/
def zeroRecord : MessageData :=
  { type_ := some "assistant",
    message := some
      { usage := some
          { input_tokens := TokenField.val 0,
            cache_read_input_tokens := TokenField.val 777,
            cache_creation_input_tokens := TokenField.val 888 },
        model := some "claude-sonnet-4" } }

/-- A record whose `input_tokens` usage field holds a negative value. -/
def negRecord : MessageData :=
  { type_ := some "assistant",
    message := some
      { usage := some
          { input_tokens := TokenField.val (-5), output_tokens := TokenField.val 3 } } }

/-- A record whose `input_tokens` usage field cannot be converted by `int()`. -/
def badRecord : MessageData :=
  { type_ := some "assistant",
    message := some
      { usage := some
          { input_tokens := TokenField.malformed, output_tokens := TokenField.val 3 } } }

/-- A small run: one project directory, one file, two processable records and
one zero record. -/
def demoDirs : List DirData :=
  [{ project_name := "myproject",
     files := [{ fallback_date := "2024-01-01",
                 lines := [demoRecord, zeroRecord, demoRecord] }] }]

/-! ### Claim theorems -/

/-- C1: after every `_process_message` call (from any state already satisfying
the contract) and at run end (both before and after finalization), every day's
six accumulators — input, output, cache-read, cache-creation tokens, message
count, and cost — equal the sums of the corresponding accumulators over that
day's project breakdown. -/
theorem claim_C1_daily_breakdown_consistency (cfg : Config) (dirs : List DirData) :
    (∀ (g : Globals) (ps : ProjectStats) (data : MessageData) (fb : String),
      dailyInv g.daily_stats →
        dailyInv (process_message cfg g ps data fb).1.daily_stats) ∧
    dailyInv (runRaw cfg dirs).globals.daily_stats ∧
    dailyInv (runAnalyzer cfg dirs).globals.daily_stats :=
  ⟨fun g ps data fb h => dailyInv_process_message cfg g ps data fb h,
   dailyInv_runRaw cfg dirs,
   dailyInv_finalize _ (dailyInv_runRaw cfg dirs)⟩

/-- Witness for C1 at a concrete configuration and record stream. -/
theorem claim_C1_witness :
    dailyInv (runAnalyzer demoCfg demoDirs).globals.daily_stats :=
  (claim_C1_daily_breakdown_consistency demoCfg demoDirs).2.2

/-- C2: for every processed record set, the sum of `total_cost` over all
project aggregates equals the sum of `total_cost` over all daily aggregates
(the `"unknown"` sentinel day, when present, is an ordinary key of the daily
map and is included), both before and after finalization. -/
theorem claim_C2_cost_conservation (cfg : Config) (dirs : List DirData) :
    costConserved (runRaw cfg dirs) ∧ costConserved (runAnalyzer cfg dirs) :=
  ⟨costConserved_runRaw cfg dirs,
   costConserved_finalize _ (costConserved_runRaw cfg dirs)⟩

/-- Witness for C2 at a concrete configuration and record stream. -/
theorem claim_C2_witness : costConserved (runAnalyzer demoCfg demoDirs) :=
  (claim_C2_cost_conservation demoCfg demoDirs).2

/-! ### C6, C9: records that are discarded without touching any aggregate -/

/-- The record has a `usage` structure whose extracted input and output token
counts are both zero (the `input_tokens == 0 and output_tokens == 0` guard). -/
def zeroTokens (data : MessageData) : Bool :=
  match data.message with
  | none => false
  | some m =>
    match m.usage with
    | none => false
    | some u =>
      extractToken u.input_tokens == some 0 && extractToken u.output_tokens == some 0

/-- The record is malformed in the sense of C9: missing (or falsy) `message`
or `usage` structure, or a token field `int()` cannot convert. -/
def isMalformed (data : MessageData) : Bool :=
  match data.message with
  | none => true
  | some m =>
    match m.usage with
    | none => true
    | some u =>
      (extractToken u.input_tokens).isNone || (extractToken u.output_tokens).isNone ||
        (extractToken u.cache_read_input_tokens).isNone ||
        (extractToken u.cache_creation_input_tokens).isNone

theorem gate_none_of_zeroTokens {data : MessageData} (h : zeroTokens data = true) :
    gateMessage data = none := by
  unfold gateMessage zeroTokens at *
  split
  · rfl
  · cases hm : data.message with
    | none => rfl
    | some m =>
      rw [hm] at h
      dsimp only at h ⊢
      cases hu : m.usage with
      | none => rfl
      | some u =>
        rw [hu] at h
        dsimp only at h ⊢
        simp only [Bool.and_eq_true, beq_iff_eq] at h
        rw [h.1, h.2]
        cases extractToken u.cache_read_input_tokens <;>
          cases extractToken u.cache_creation_input_tokens <;> simp

theorem gate_none_of_malformed {data : MessageData} (h : isMalformed data = true) :
    gateMessage data = none := by
  unfold gateMessage isMalformed at *
  split
  · rfl
  · cases hm : data.message with
    | none => rfl
    | some m =>
      rw [hm] at h
      dsimp only at h ⊢
      cases hu : m.usage with
      | none => rfl
      | some u =>
        rw [hu] at h
        dsimp only at h ⊢
        simp only [Bool.or_eq_true, Option.isNone_iff_eq_none] at h
        cases hi : extractToken u.input_tokens <;>
          cases ho : extractToken u.output_tokens <;>
          cases hcr : extractToken u.cache_read_input_tokens <;>
          cases hcc : extractToken u.cache_creation_input_tokens <;>
          simp_all

theorem process_message_skip (cfg : Config) (g : Globals) (ps : ProjectStats)
    (data : MessageData) (fb : String) (h : gateMessage data = none) :
    process_message cfg g ps data fb = (g, ps, false) := by
  unfold process_message
  rw [h]

theorem processLine_skip (cfg : Config) (s : AnalyzerState) (pname fb : String)
    (data : MessageData) (h : gateMessage data = none) :
    processLine cfg s pname fb data = s := by
  unfold processLine
  cases hl : lookupA s.project_stats pname with
  | none => rfl
  | some ps =>
    dsimp only
    rw [process_message_skip cfg s.globals ps data fb h]
    dsimp only
    rw [setA_lookup_self hl]

theorem fold_drop_skipped (cfg : Config) (pname fb : String) (data : MessageData)
    (h : gateMessage data = none) (s : AnalyzerState) (pre post : List MessageData) :
    (pre ++ data :: post).foldl (fun s d => processLine cfg s pname fb d) s =
      (pre ++ post).foldl (fun s d => processLine cfg s pname fb d) s := by
  rw [List.foldl_append, List.foldl_append, List.foldl_cons,
    processLine_skip cfg _ pname fb data h]

/-- C6: a record whose extracted input and output token counts are both zero
is discarded whatever its cache-token counts: `_process_message` reports it
unprocessed and leaves the project aggregate, the daily aggregates (with
their project breakdowns), the model aggregates, and the resolution cache all
unchanged; folding such a record at any point of a file changes nothing. -/
theorem claim_C6_zero_record_discarded (cfg : Config) (g : Globals) (ps : ProjectStats)
    (data : MessageData) (fb : String) (h : zeroTokens data = true) :
    process_message cfg g ps data fb = (g, ps, false) ∧
    ∀ (s : AnalyzerState) (pname : String), processLine cfg s pname fb data = s :=
  ⟨process_message_skip cfg g ps data fb (gate_none_of_zeroTokens h),
   fun s pname => processLine_skip cfg s pname fb data (gate_none_of_zeroTokens h)⟩

/-- Witness for C6: a concrete zero-token record with nonzero cache counts. -/
theorem claim_C6_witness :
    zeroTokens zeroRecord = true ∧
    process_message demoCfg {} {} zeroRecord "2024-01-01" = ({}, {}, false) :=
  ⟨by decide,
   (claim_C6_zero_record_discarded demoCfg {} {} zeroRecord "2024-01-01" (by decide)).1⟩

/-- C9: a malformed record — missing `message` or `usage`, or a token field of
an unconvertible type — mutates no aggregate at all, and processing a stream
containing it equals processing the stream with the record removed (the run
continues with the next record). -/
theorem claim_C9_malformed_record_atomic (cfg : Config) (g : Globals)
    (ps : ProjectStats) (data : MessageData) (fb : String)
    (h : isMalformed data = true) :
    process_message cfg g ps data fb = (g, ps, false) ∧
    ∀ (s : AnalyzerState) (pname : String) (pre post : List MessageData),
      (pre ++ data :: post).foldl (fun s d => processLine cfg s pname fb d) s =
        (pre ++ post).foldl (fun s d => processLine cfg s pname fb d) s :=
  ⟨process_message_skip cfg g ps data fb (gate_none_of_malformed h),
   fun s pname pre post =>
     fold_drop_skipped cfg pname fb data (gate_none_of_malformed h) s pre post⟩

/-- Witness for C9: a record with an unconvertible `input_tokens` value,
dropped in the middle of a two-record stream. -/
theorem claim_C9_witness :
    isMalformed badRecord = true ∧
    ([demoRecord] ++ badRecord :: [demoRecord]).foldl
        (fun s d => processLine demoCfg s "myproject" "2024-01-01" d) {} =
      ([demoRecord] ++ [demoRecord]).foldl
        (fun s d => processLine demoCfg s "myproject" "2024-01-01" d) {} :=
  ⟨by decide,
   (claim_C9_malformed_record_atomic demoCfg {} {} badRecord "2024-01-01"
     (by decide)).2 {} "myproject" [demoRecord] [demoRecord]⟩

/-! ### C7: absent token fields read as zero, but negatives pass through -/

/-- C7 counterexample: a record whose `usage.input_tokens` is `-5` (with
`output_tokens = 3`) is processed, and `-5` is folded into the project
aggregate and handed on — the token counts folded into the aggregates are
*not* non-negative, because `int(usage.get("input_tokens") or 0)` only zeroes
absent or falsy values, never negative ones. -/
theorem claim_C7_counterexample :
    extractToken (TokenField.val (-5)) = some (-5) ∧
    (process_message demoCfg {} {} negRecord "2024-01-01").2.2 = true ∧
    (process_message demoCfg {} {} negRecord "2024-01-01").2.1.total_input_tokens = -5 ∧
    ¬(0 ≤ (process_message demoCfg {} {} negRecord
      "2024-01-01").2.1.total_input_tokens) := by
  refine ⟨rfl, ?_, ?_, ?_⟩ <;> decide

theorem updateProj_token_fields (i o cr cc : ℤ) (cost : ℚ) (mn d : String)
    (ps : ProjectStats) :
    (updateProj i o cr cc cost mn d ps).total_input_tokens =
        ps.total_input_tokens + i ∧
      (updateProj i o cr cc cost mn d ps).total_output_tokens =
        ps.total_output_tokens + o ∧
      (updateProj i o cr cc cost mn d ps).total_cache_read_tokens =
        ps.total_cache_read_tokens + cr ∧
      (updateProj i o cr cc cost mn d ps).total_cache_creation_tokens =
        ps.total_cache_creation_tokens + cc := by
  unfold updateProj
  dsimp only
  split <;> exact ⟨rfl, rfl, rfl, rfl⟩

/-- C7 (amended): the caller reads an absent token field as zero, but a
present integer field — negative included — passes through `int(x or 0)`
unchanged; a processed record folds exactly the extracted (possibly negative)
values into the aggregates, with no clamping. -/
theorem claim_C7_amended_tokens_passed_through (cfg : Config) (g : Globals)
    (ps : ProjectStats) (data : MessageData) (m : MessagePart) (u : Usage)
    (fb : String) (i o cr cc : ℤ)
    (htype : data.type_ = some "assistant") (hm : data.message = some m)
    (hu : m.usage = some u)
    (hi : extractToken u.input_tokens = some i)
    (ho : extractToken u.output_tokens = some o)
    (hcr : extractToken u.cache_read_input_tokens = some cr)
    (hcc : extractToken u.cache_creation_input_tokens = some cc)
    (hnz : ¬(i = 0 ∧ o = 0)) :
    (process_message cfg g ps data fb).2.1.total_input_tokens =
        ps.total_input_tokens + i ∧
      (process_message cfg g ps data fb).2.1.total_output_tokens =
        ps.total_output_tokens + o ∧
      (process_message cfg g ps data fb).2.1.total_cache_read_tokens =
        ps.total_cache_read_tokens + cr ∧
      (process_message cfg g ps data fb).2.1.total_cache_creation_tokens =
        ps.total_cache_creation_tokens + cc ∧
      extractToken TokenField.absent = some 0 := by
  have hgate : gateMessage data =
      some (i, o, cr, cc, m.model.getD "unknown") := by
    unfold gateMessage
    rw [if_neg (by simp [htype]), hm]
    dsimp only
    rw [hu]
    dsimp only
    rw [hi, ho, hcr, hcc]
    dsimp only
    rw [if_neg hnz]
  unfold process_message
  rw [hgate]
  dsimp only
  exact ⟨(updateProj_token_fields _ _ _ _ _ _ _ _).1,
    (updateProj_token_fields _ _ _ _ _ _ _ _).2.1,
    (updateProj_token_fields _ _ _ _ _ _ _ _).2.2.1,
    (updateProj_token_fields _ _ _ _ _ _ _ _).2.2.2, rfl⟩

/-- Witness for the amended C7 at the negative-token record. -/
theorem claim_C7_amended_witness :
    (¬((-5 : ℤ) = 0 ∧ (3 : ℤ) = 0)) ∧
    (process_message demoCfg {} {} negRecord "2024-01-01").2.1.total_input_tokens =
      0 + (-5) :=
  ⟨by decide,
   (claim_C7_amended_tokens_passed_through demoCfg {} {} negRecord _ _
     "2024-01-01" (-5) 3 0 0 rfl rfl rfl rfl rfl rfl rfl (by decide)).1⟩

/-! ### C3: tiered rules select the smallest threshold at or above the input -/

/-- The input-token count is within a tier: at or below its numeric threshold,
or the tier has no threshold (treated as `+∞`). -/
def inputFits (input_tokens : ℤ) (t : Tier) : Prop :=
  ((input_tokens : ℚ) : WithTop ℚ) ≤ tierKey t

instance (input_tokens : ℤ) (t : Tier) : Decidable (inputFits input_tokens t) :=
  inferInstanceAs (Decidable (((input_tokens : ℚ) : WithTop ℚ) ≤ tierKey t))

theorem scanTiers_none {input_tokens : ℤ} {l : List Tier}
    (h : scanTiers input_tokens l = none) : ∀ t ∈ l, ¬ inputFits input_tokens t := by
  induction l with
  | nil => intro t ht; simp at ht
  | cons hd rest ih =>
    unfold scanTiers at h
    intro t ht
    cases hh : hd.threshold with
    | none => rw [hh] at h; exact absurd h (by simp)
    | some th =>
      cases th with
      | inf => rw [hh] at h; exact absurd h (by simp)
      | num q =>
        rw [hh] at h
        dsimp only at h
        by_cases hq : (input_tokens : ℚ) ≤ q
        · rw [if_pos hq] at h; exact absurd h (by simp)
        · rw [if_neg hq] at h
          rcases List.mem_cons.mp ht with rfl | ht'
          · intro hfit
            unfold inputFits tierKey at hfit
            rw [hh] at hfit
            dsimp only at hfit
            exact hq (by exact_mod_cast hfit)
          · exact ih h t ht'

theorem scanTiers_some_min {input_tokens : ℤ} {l : List Tier} {t : Tier}
    (hs : List.Sorted tierLE l) (h : scanTiers input_tokens l = some t) :
    t ∈ l ∧ inputFits input_tokens t ∧
      ∀ t' ∈ l, inputFits input_tokens t' → tierKey t ≤ tierKey t' := by
  induction l with
  | nil => simp [scanTiers] at h
  | cons hd rest ih =>
    obtain ⟨hhd, hrest⟩ := List.sorted_cons.mp hs
    unfold scanTiers at h
    have hsel : ∀ (heq : t = hd), inputFits input_tokens hd →
        t ∈ hd :: rest ∧ inputFits input_tokens t ∧
          ∀ t' ∈ hd :: rest, inputFits input_tokens t' → tierKey t ≤ tierKey t' := by
      rintro rfl hfit
      refine ⟨List.mem_cons_self _ _, hfit, ?_⟩
      intro t' ht' _
      rcases List.mem_cons.mp ht' with rfl | ht'
      · exact le_refl _
      · exact hhd t' ht'
    cases hh : hd.threshold with
    | none =>
      rw [hh] at h
      exact hsel (by simpa using h.symm) (by unfold inputFits tierKey; rw [hh]; exact le_top)
    | some th =>
      cases th with
      | inf =>
        rw [hh] at h
        exact hsel (by simpa using h.symm)
          (by unfold inputFits tierKey; rw [hh]; exact le_top)
      | num q =>
        rw [hh] at h
        dsimp only at h
        by_cases hq : (input_tokens : ℚ) ≤ q
        · rw [if_pos hq] at h
          exact hsel (by simpa using h.symm)
            (by unfold inputFits tierKey; rw [hh]; dsimp only; exact_mod_cast hq)
        · rw [if_neg hq] at h
          obtain ⟨hmem, hfit, hmin⟩ := ih hrest h
          refine ⟨List.mem_cons_of_mem _ hmem, hfit, ?_⟩
          intro t' ht' hfit'
          rcases List.mem_cons.mp ht' with rfl | ht'
          · exfalso
            unfold inputFits tierKey at hfit'
            rw [hh] at hfit'
            dsimp only at hfit'
            exact hq (by exact_mod_cast hfit')
          · exact hmin t' ht' hfit'

theorem demo_sorted : List.insertionSort tierLE demoTiers = demoTiers := by
  unfold demoTiers
  simp only [List.insertionSort, List.orderedInsert]
  rw [if_pos]
  show tierKey demoTier1 ≤ tierKey demoTier2
  norm_num [tierKey, demoTier1, demoTier2]

theorem scan_200000 : scanTiers 200000 demoTiers = some demoTier1 := by
  norm_num [scanTiers, demoTiers, demoTier1, demoTier2]

theorem scan_200001 : scanTiers 200001 demoTiers = some demoTier2 := by
  norm_num [scanTiers, demoTiers, demoTier1, demoTier2]

theorem select_200000 : selectTier demoTiers 200000 = some demoTier1 := by
  unfold selectTier
  dsimp only
  rw [demo_sorted, scan_200000]

theorem select_200001 : selectTier demoTiers 200001 = some demoTier2 := by
  unfold selectTier
  dsimp only
  rw [demo_sorted, scan_200001]

/-- C3: for a tiered rule, whenever some tier accommodates the input-token
count (a threshold-less tier accommodates everything), the selected tier
accommodates it and its effective threshold is the smallest among all tiers
that do, boundary inclusive; the tier choice uses only the input-token count
and its four rates price all four token kinds; on the spec's example tiers,
200000 input tokens are priced at 1.25/million and 200001 at 2.50/million. -/
theorem claim_C3_tier_selection (tiers : List Tier) (input_tokens : ℤ)
    (h : ∃ t ∈ tiers, inputFits input_tokens t) :
    (∃ t, selectTier tiers input_tokens = some t ∧ inputFits input_tokens t ∧
      ∀ t' ∈ tiers, inputFits input_tokens t' → tierKey t ≤ tierKey t') ∧
    (∀ (mc : ModelConfig) (tl : List Tier), mc.tiers = some tl →
      ∀ (i o cr cc : ℤ), rawModelCost mc i o cr cc =
        (i : ℚ) / 1000000 * (tierRates (selectTier tl i)).1 +
        (o : ℚ) / 1000000 * (tierRates (selectTier tl i)).2.1 +
        (cr : ℚ) / 1000000 * (tierRates (selectTier tl i)).2.2.1 +
        (cc : ℚ) / 1000000 * (tierRates (selectTier tl i)).2.2.2) ∧
    rawModelCost { tiers := some demoTiers } 200000 0 0 0 =
      200000 / 1000000 * (5/4) ∧
    rawModelCost { tiers := some demoTiers } 200001 0 0 0 =
      200001 / 1000000 * (5/2) := by
  refine ⟨?_, ?_,
    by unfold rawModelCost configRates
       dsimp only
       rw [select_200000]
       norm_num [tierRates, demoTier1],
    by unfold rawModelCost configRates
       dsimp only
       rw [select_200001]
       norm_num [tierRates, demoTier2]⟩
  · obtain ⟨t0, ht0, hf0⟩ := h
    have hs : List.Sorted tierLE (List.insertionSort tierLE tiers) :=
      List.sorted_insertionSort tierLE tiers
    have hmem0 : t0 ∈ List.insertionSort tierLE tiers :=
      (List.mem_insertionSort tierLE).mpr ht0
    cases hscan : scanTiers input_tokens (List.insertionSort tierLE tiers) with
    | none => exact absurd hf0 (scanTiers_none hscan t0 hmem0)
    | some t =>
      obtain ⟨_, hfit, hmin⟩ := scanTiers_some_min hs hscan
      refine ⟨t, ?_, hfit, ?_⟩
      · unfold selectTier
        dsimp only
        rw [hscan]
      · intro t' ht' hf'
        exact hmin t' ((List.mem_insertionSort tierLE).mpr ht') hf'
  · intro mc tl hmc i o cr cc
    unfold rawModelCost configRates
    rw [hmc]

/-- Witness for C3: on the spec's example tiers with 200000 input tokens, a
tier accommodates the input and the minimal-threshold tier is selected. -/
theorem claim_C3_witness :
    (∃ t ∈ demoTiers, inputFits 200000 t) ∧
    (∃ t, selectTier demoTiers 200000 = some t ∧ inputFits 200000 t ∧
      ∀ t' ∈ demoTiers, inputFits 200000 t' → tierKey t ≤ tierKey t') :=
  have hfit : inputFits 200000 demoTier1 := by
    norm_num [inputFits, tierKey, demoTier1]
  ⟨⟨demoTier1, by simp [demoTiers], hfit⟩,
   (claim_C3_tier_selection demoTiers 200000 ⟨demoTier1, by simp [demoTiers], hfit⟩).1⟩

/-! ### C4: exact match first, then first case-insensitive substring match -/

/-- The resolution policy as the spec words it: first the catalog key equal to
the model name case-insensitively; if none, scanning keys in catalog order,
the first key that is a case-insensitive substring of the model name
(`List.find?` is exactly first-match in list order). -/
def specResolve (model_name : String) (catalog : List (String × ModelConfig)) :
    Option ModelConfig :=
  match catalog.find? (fun e => lowerStr model_name == lowerStr e.1) with
  | some e => some e.2
  | none =>
    Option.map (fun e => e.2) (catalog.find? (fun e => substrMatch e.1 model_name))

theorem findExact_eq (name : String) (l : List (String × ModelConfig)) :
    findExact name l =
      Option.map (fun e => e.2) (l.find? (fun e => lowerStr name == lowerStr e.1)) := by
  induction l with
  | nil => rfl
  | cons e rest ih =>
    obtain ⟨k, v⟩ := e
    by_cases h : lowerStr name = lowerStr k
    · rw [findExact, if_pos h, List.find?_cons_of_pos _ (by simpa using h)]
      rfl
    · rw [findExact, if_neg h, List.find?_cons_of_neg _ (by simpa using h), ih]

theorem findSubstr_eq (name : String) (l : List (String × ModelConfig)) :
    findSubstr name l =
      Option.map (fun e => e.2) (l.find? (fun e => substrMatch e.1 name)) := by
  induction l with
  | nil => rfl
  | cons e rest ih =>
    obtain ⟨k, v⟩ := e
    by_cases h : substrMatch k name = true
    · rw [findSubstr, if_pos h, List.find?_cons_of_pos _ (by simpa using h)]
      rfl
    · rw [findSubstr, if_neg h, List.find?_cons_of_neg _ (by simpa using h), ih]

theorem findSubstr_truthy {name : String} {l : List (String × ModelConfig)}
    {v : ModelConfig} (hall : ∀ e ∈ l, e.2.isTruthy = true)
    (h : findSubstr name l = some v) : v.isTruthy = true := by
  rw [findSubstr_eq] at h
  cases hf : l.find? (fun e => substrMatch e.1 name) with
  | none => rw [hf] at h; exact absurd h (by simp)
  | some e =>
    rw [hf] at h
    simp only [Option.map_some'] at h
    obtain rfl := Option.some.inj h
    exact hall e (List.mem_of_find?_eq_some hf)

/-- C4: on catalogs whose rules are non-empty dictionaries (as the spec's data
model guarantees: a rule is flat with rates or tiered), `calculate_model_cost`
resolution equals the spec's policy — case-insensitive exact match first,
otherwise the first key in catalog order that is a case-insensitive substring
of the model name — and on the spec's scenario catalog
`{"sonnet":..., "claude-3-sonnet":...}` the model `claude-3-sonnet-20240229`
resolves to the `sonnet` rule (first match, not the longer match). -/
theorem claim_C4_resolver_precedence (model_name : String)
    (catalog : List (String × ModelConfig))
    (hall : ∀ e ∈ catalog, e.2.isTruthy = true) :
    resolveModel model_name catalog = specResolve model_name catalog ∧
    resolveModel "claude-3-sonnet-20240229" demoCatalog = some sonnetRule ∧
    sonnetRule ≠ claude3SonnetRule := by
  refine ⟨?_, by decide, by decide⟩
  unfold resolveModel specResolve
  cases hf : catalog.find? (fun e => lowerStr model_name == lowerStr e.1) with
  | some e =>
    have hx : findExact model_name catalog = some e.2 := by rw [findExact_eq, hf]; rfl
    have htr := hall e (List.mem_of_find?_eq_some hf)
    rw [hx]
    simp [configTruthy, htr]
  | none =>
    have hx : findExact model_name catalog = none := by rw [findExact_eq, hf]; rfl
    rw [hx]
    cases hg : findSubstr model_name catalog with
    | some w =>
      have hw := findSubstr_truthy hall hg
      have hmap : Option.map (fun e => e.2)
          (catalog.find? (fun e => substrMatch e.1 model_name)) = some w := by
        rw [← findSubstr_eq]; exact hg
      rw [hmap]
      simp [configTruthy, hw]
    | none =>
      have hmap : Option.map (fun e => e.2)
          (catalog.find? (fun e => substrMatch e.1 model_name)) = none := by
        rw [← findSubstr_eq]; exact hg
      rw [hmap]
      simp [configTruthy]

/-- Witness for C4 on the spec's scenario catalog. -/
theorem claim_C4_witness :
    (∀ e ∈ demoCatalog, e.2.isTruthy = true) ∧
    resolveModel "claude-3-sonnet-20240229" demoCatalog =
      specResolve "claude-3-sonnet-20240229" demoCatalog :=
  ⟨by decide,
   (claim_C4_resolver_precedence "claude-3-sonnet-20240229" demoCatalog (by decide)).1⟩

/-! ### C5: CNY rules are normalized to USD, USD rules pass through -/

theorem resolveModel_single (name : String) (mc : ModelConfig)
    (h : mc.isTruthy = true) : resolveModel name [(name, mc)] = some mc := by
  unfold resolveModel findExact
  simp [configTruthy, h]

theorem calc_single_cny (name : String) (mc : ModelConfig) (i o cr cc : ℤ)
    (ccfg : CurrencyConfig) (r : ℚ) (hr : ccfg.usd_to_cny = some r)
    (hcny : mc.currency = some "CNY") :
    calculate_model_cost name i o cr cc [(name, mc)] none (some ccfg) =
      (rawModelCost mc i o cr cc / r, none) := by
  have htr : mc.isTruthy = true := by
    unfold ModelConfig.isTruthy
    rw [hcny]
    simp
  unfold calculate_model_cost
  rw [if_neg (by simp), resolveModel_single name mc htr]
  dsimp only [cacheGet]
  unfold costFromConfig
  rw [hcny]
  have htrc : currencyTruthy (some ccfg) = true := by
    simp [currencyTruthy, CurrencyConfig.isTruthy, hr]
  rw [if_pos ⟨rfl, htrc⟩]
  simp [hr]

theorem calc_single_usd (name : String) (mc : ModelConfig) (i o cr cc : ℤ)
    (ccfg : CurrencyConfig) (husd : mc.currency = some "USD") :
    calculate_model_cost name i o cr cc [(name, mc)] none (some ccfg) =
      (rawModelCost mc i o cr cc, none) := by
  have htr : mc.isTruthy = true := by
    unfold ModelConfig.isTruthy
    rw [husd]
    simp
  unfold calculate_model_cost
  rw [if_neg (by simp), resolveModel_single name mc htr]
  dsimp only [cacheGet]
  unfold costFromConfig
  rw [husd]
  rw [if_neg (by simp)]

/-- C5: resolving a single-rule catalog, a rule with `currency = "CNY"` has
its computed cost divided by the supplied (nonzero) `usd_to_cny` rate, while a
rule with `currency = "USD"` passes through unchanged; concretely, a CNY rule
at 4.0 per million input tokens with `usd_to_cny = 8.0` prices 1000000 input
tokens at 0.5 USD. -/
theorem claim_C5_currency_normalization (name : String) (mc : ModelConfig)
    (i o cr cc : ℤ) (ccfg : CurrencyConfig) (r : ℚ)
    (hr : ccfg.usd_to_cny = some r) (_hr0 : r ≠ 0) :
    (mc.currency = some "CNY" →
      calculate_model_cost name i o cr cc [(name, mc)] none (some ccfg) =
        (rawModelCost mc i o cr cc / r, none)) ∧
    (mc.currency = some "USD" →
      calculate_model_cost name i o cr cc [(name, mc)] none (some ccfg) =
        (rawModelCost mc i o cr cc, none)) ∧
    calculate_model_cost "m" 1000000 0 0 0 [("m", cnyDemoRule)] none
      (some { usd_to_cny := some 8 }) = (1/2, none) := by
  refine ⟨fun hcny => calc_single_cny name mc i o cr cc ccfg r hr hcny,
    fun husd => calc_single_usd name mc i o cr cc ccfg husd, ?_⟩
  rw [calc_single_cny "m" cnyDemoRule 1000000 0 0 0 _ 8 rfl rfl]
  have hraw : rawModelCost cnyDemoRule 1000000 0 0 0 = 4 := by
    unfold rawModelCost configRates cnyDemoRule
    norm_num
  rw [hraw]
  norm_num

/-- Witness for C5 at the spec's concrete CNY scenario. -/
theorem claim_C5_witness :
    ({ usd_to_cny := some 8 } : CurrencyConfig).usd_to_cny = some 8 ∧
    ((8 : ℚ) ≠ 0) ∧
    calculate_model_cost "m" 1000000 0 0 0 [("m", cnyDemoRule)] none
      (some { usd_to_cny := some 8 }) = (1/2, none) :=
  ⟨rfl, by norm_num,
   (claim_C5_currency_normalization "m" cnyDemoRule 1000000 0 0 0
     { usd_to_cny := some 8 } 8 rfl (by norm_num)).2.2⟩

/-! ### C8: an unresolvable model yields exactly zero cost, not an error -/

/-- C8: when the model name matches no catalog entry (exactly or by
substring) and is not in the cache, `calculate_model_cost` returns exactly
`0.0` without touching any rate arithmetic, and leaves the cache unchanged
(the miss is not recorded); the call returns normally rather than raising. -/
theorem claim_C8_unresolved_model_zero_cost (name : String) (i o cr cc : ℤ)
    (pricing : List (String × ModelConfig))
    (cache : Option (List (String × ModelConfig)))
    (ccfg : Option CurrencyConfig)
    (h1 : resolveModel name pricing = none)
    (h2 : cacheGet cache name = none) :
    calculate_model_cost name i o cr cc pricing cache ccfg = (0, cache) := by
  unfold calculate_model_cost
  by_cases he : pricing.isEmpty
  · rw [if_pos he]
  · rw [if_neg he, h2, h1]

/-- Witness for C8: `totally-unknown-model` against the scenario catalog with
an empty cache. -/
theorem claim_C8_witness :
    resolveModel "totally-unknown-model" demoCatalog = none ∧
    cacheGet (some []) "totally-unknown-model" = none ∧
    calculate_model_cost "totally-unknown-model" 123 456 7 8 demoCatalog
      (some []) none = (0, some []) :=
  ⟨by decide, rfl,
   claim_C8_unresolved_model_zero_cost "totally-unknown-model" 123 456 7 8
     demoCatalog (some []) none (by decide) rfl⟩

/-! ### C10: the memoization cache is observationally transparent -/

/-- One cost-computation request: a model name and its four token counts. -/
structure CallIn where
  model_name : String := ""
  input_tokens : ℤ := 0
  output_tokens : ℤ := 0
  cache_read_tokens : ℤ := 0
  cache_creation_tokens : ℤ := 0

/-- A sequence of `calculate_model_cost` calls over one fixed catalog and
currency config, threading the (optional) cache through; returns the list of
computed costs and the final cache. -/
def runCalcSeq (pricing : List (String × ModelConfig))
    (ccfg : Option CurrencyConfig) :
    Option (List (String × ModelConfig)) → List CallIn →
      List ℚ × Option (List (String × ModelConfig))
  | cache, [] => ([], cache)
  | cache, c :: rest =>
    let r := calculate_model_cost c.model_name c.input_tokens c.output_tokens
      c.cache_read_tokens c.cache_creation_tokens pricing cache ccfg
    let rr := runCalcSeq pricing ccfg r.2 rest
    (r.1 :: rr.1, rr.2)

/-- Every cache entry is the rule its key actually resolves to (in particular,
every cached name resolves: misses are never cached). -/
def cacheSound (pricing : List (String × ModelConfig))
    (c : List (String × ModelConfig)) : Prop :=
  ∀ e ∈ c, resolveModel e.1 pricing = some e.2

theorem mem_setA {α : Type} {l : List (String × α)} {k : String} {v : α}
    {e : String × α} (he : e ∈ setA l k v) : e ∈ l ∨ e = (k, v) := by
  rcases mem_updateA he with h | ⟨w, rfl⟩
  · exact Or.inl h
  · exact Or.inr rfl

theorem cacheSound_setA {pricing c k v} (h : cacheSound pricing c)
    (hres : resolveModel k pricing = some v) : cacheSound pricing (setA c k v) := by
  intro e he
  rcases mem_setA he with he | rfl
  · exact h e he
  · exact hres

theorem calc_cache_none (name : String) (i o cr cc : ℤ)
    (pricing : List (String × ModelConfig)) (ccfg : Option CurrencyConfig) :
    (calculate_model_cost name i o cr cc pricing none ccfg).2 = none := by
  unfold calculate_model_cost
  by_cases he : pricing.isEmpty
  · rw [if_pos he]
  · rw [if_neg he]
    dsimp only [cacheGet]
    cases resolveModel name pricing <;> rfl

/-- One call with a sound cache returns the same cost as with no cache, and
leaves a sound cache. -/
theorem calc_cache_step (pricing : List (String × ModelConfig))
    (ccfg : Option CurrencyConfig) (name : String) (i o cr cc : ℤ)
    (c : List (String × ModelConfig)) (h : cacheSound pricing c) :
    (calculate_model_cost name i o cr cc pricing (some c) ccfg).1 =
      (calculate_model_cost name i o cr cc pricing none ccfg).1 ∧
    ∃ c', (calculate_model_cost name i o cr cc pricing (some c) ccfg).2 = some c' ∧
      cacheSound pricing c' := by
  unfold calculate_model_cost
  by_cases he : pricing.isEmpty
  · rw [if_pos he, if_pos he]
    exact ⟨rfl, c, rfl, h⟩
  · rw [if_neg he, if_neg he]
    dsimp only [cacheGet]
    cases hc : lookupA c name with
    | some mc =>
      have hres : resolveModel name pricing = some mc := h _ (lookupA_mem hc)
      rw [hres]
      exact ⟨rfl, c, rfl, h⟩
    | none =>
      cases hres : resolveModel name pricing with
      | none => exact ⟨rfl, c, rfl, h⟩
      | some mc => exact ⟨rfl, setA c name mc, rfl, cacheSound_setA h hres⟩

theorem runCalcSeq_transparent (pricing : List (String × ModelConfig))
    (ccfg : Option CurrencyConfig) (calls : List CallIn) :
    ∀ c, cacheSound pricing c →
      (runCalcSeq pricing ccfg (some c) calls).1 =
        (runCalcSeq pricing ccfg none calls).1 ∧
      ∃ c', (runCalcSeq pricing ccfg (some c) calls).2 = some c' ∧
        cacheSound pricing c' := by
  induction calls with
  | nil => exact fun c h => ⟨rfl, c, rfl, h⟩
  | cons call rest ih =>
    intro c h
    obtain ⟨hcost, c', hc', hsound⟩ := calc_cache_step pricing ccfg call.model_name
      call.input_tokens call.output_tokens call.cache_read_tokens
      call.cache_creation_tokens c h
    obtain ⟨ih1, c'', hi2, hi3⟩ := ih c' hsound
    unfold runCalcSeq
    dsimp only
    rw [hc', calc_cache_none]
    exact ⟨by rw [hcost, ih1], c'', hi2, hi3⟩

/-- C10: starting from an empty cache, a sequence of cost computations over a
fixed catalog returns exactly the same cost for every call as the same
sequence with no cache at all, and the final cache holds only successful
resolutions — every cached name resolves to exactly the rule stored for it,
so a not-found model name is never cached. -/
theorem claim_C10_cache_transparency (pricing : List (String × ModelConfig))
    (ccfg : Option CurrencyConfig) (calls : List CallIn) :
    (runCalcSeq pricing ccfg (some []) calls).1 =
      (runCalcSeq pricing ccfg none calls).1 ∧
    ∃ c', (runCalcSeq pricing ccfg (some []) calls).2 = some c' ∧
      ∀ e ∈ c', resolveModel e.1 pricing = some e.2 :=
  runCalcSeq_transparent pricing ccfg calls [] (fun e he => absurd he (by simp))

/-- Witness for C10 at a concrete catalog and call sequence (a repeated hit, a
miss, and a repeat of the hit). -/
theorem claim_C10_witness :
    (runCalcSeq demoCatalog none (some [])
      [{ model_name := "claude-sonnet-4", input_tokens := 100 },
       { model_name := "totally-unknown-model", input_tokens := 1 },
       { model_name := "claude-sonnet-4", input_tokens := 5 }]).1 =
    (runCalcSeq demoCatalog none none
      [{ model_name := "claude-sonnet-4", input_tokens := 100 },
       { model_name := "totally-unknown-model", input_tokens := 1 },
       { model_name := "claude-sonnet-4", input_tokens := 5 }]).1 :=
  (claim_C10_cache_transparency demoCatalog none
    [{ model_name := "claude-sonnet-4", input_tokens := 100 },
     { model_name := "totally-unknown-model", input_tokens := 1 },
     { model_name := "claude-sonnet-4", input_tokens := 5 }]).1

end ClaudeCodeCost
